import Mathlib

/-!
# Verification of `src/cv/checkBSDF.c` (Radiance BSDF reciprocity checker)

Shallow embedding of the three core routines of `checkBSDF.c`:

* `getBSDFtype`      (source lines 23–65): structural type classifier;
* `detailComponent`  (source lines 68–79): Lambertian summary reporter;
* `checkReciprocity` (source lines 82–130): Helmholtz reciprocity checker.

C `double` values are modelled as exact rationals `ℚ` (reals `ℝ` where the
source computes `sqrt`/`π`).  The external BSDF data library (`bsdf.h`,
`bsdf_m.h`, `bsdf_t.h`) is not part of the sources under verification; its
operations are modelled from the specification's interface section as opaque
fields of the data structures (see the doc comments marked
`Modelled from the spec:`).
-/

/-- A 3-D direction vector (C `FVECT`), components as exact rationals. -/
abbrev FVECT : Type := ℚ × ℚ × ℚ

/-- C `SDValue`: a luminance (`cieY`) together with 2-D chromaticity
coordinates (`spec.cx`, `spec.cy`).  The nested `C_COLOR` record is
flattened. -/
structure SDValue where
  cieY : ℚ
  cx : ℚ
  cy : ℚ
  deriving DecidableEq

/-- Modelled from the spec: `MatrixDistribution` — C `SDMat`.  A table with
`ninc` incoming and `nout` outgoing bins.  `chroma` models the presence of the
optional chroma channel (`m->chroma != NULL`).  `value o i` models the library
lookup `lookupMatrixValue(matrix, outBin, inBin)` (C macro `mBSDF_value`);
`incvec i` / `outvec o` model `reconstructDirection` at the bin centre
(`mBSDF_incvec(v, m, i+.5)` / `mBSDF_outvec(v, m, o+.5)`), returning `none`
when the reconstruction fails (the C functions return 0). -/
structure SDMat where
  ninc : Nat
  nout : Nat
  chroma : Bool
  value : Nat → Nat → ℚ
  incvec : Nat → Option FVECT
  outvec : Nat → Option FVECT

/-- Modelled from the spec: `TreeDistribution` — C `SDTre`.  `ndim` is the
dimensionality of the primary tree (`t->stc[0]->ndim`); `chroma` models the
presence of the second (chroma) tree (`t->stc[1] != NULL`). -/
structure SDTre where
  ndim : Nat
  chroma : Bool
  deriving DecidableEq

/-- The evaluator capability of a distribution component: the C code compares
`df->comp[0].func` against the known entry points `&SDhandleMtx` and
`&SDhandleTre`; any other handler is `other`. -/
inductive SDFuncTag where
  | mtx
  | tre
  | other
  deriving DecidableEq

/-- C `SDComponent` (restricted to the fields the checker reads).  The C
field `dist` is a `void *` that the source casts to `SDMat *` or `SDTre *`
according to context — in particular `checkReciprocity` casts it to `SDMat *`
without consulting `func`.  The untyped pointer is therefore modelled by
carrying both typed views of the same datum: `distM` is the data as read
through the matrix view, `distT` as read through the tree view. -/
structure SDComponent where
  func : SDFuncTag
  distM : SDMat
  distT : SDTre

/-- C `SDSpectralDF`, restricted to what `checkBSDF.c` reads: the first
distribution component `comp[0]` and the reporting fields `maxHemi`,
`minProjSA`. -/
structure SDSpectralDF where
  comp0 : SDComponent
  maxHemi : ℚ
  minProjSA : ℚ

/-- C `SDData`, restricted to what `checkBSDF.c` reads: the four optional
hemisphere slots, the four Lambertian baselines, geometry presence, and the
general evaluator.  The field `eval` is modelled from the spec:
`evaluateBSDF(dataset, outgoingVector, incomingVector) → (LambertianValue,
ErrorKind?)` (C `SDevalBSDF(&sv, outVec, inVec, sd)`); `eval outVec inVec =
none` models a failing evaluation (a nonzero `SDError`). -/
structure SDData where
  rf : Option SDSpectralDF
  rb : Option SDSpectralDF
  tf : Option SDSpectralDF
  tb : Option SDSpectralDF
  rLambFront : SDValue
  rLambBack : SDValue
  tLambFront : SDValue
  tLambBack : SDValue
  mgf : Bool
  eval : FVECT → FVECT → Option SDValue

/-- C flag `F_IN_COLOR` (source line 17). -/
def F_IN_COLOR : Nat := 1
/-- C flag `F_ISOTROPIC` (source line 18). -/
def F_ISOTROPIC : Nat := 2
/-- C flag `F_MATRIX` (source line 19). -/
def F_MATRIX : Nat := 4
/-- C flag `F_TTREE` (source line 20). -/
def F_TTREE : Nat := 8

/-- Modelled from the spec: the library constant `FTINY` (`fvect.h`), the
small positive threshold below which a forward value is treated as physically
negligible.  Its value in the library headers is `1e-6`. -/
def FTINY : ℚ := 1 / 1000000

/-- Modelled from the spec: the library constant `FHUGE` (`fvect.h`), used by
the source only to initialise the running minimum (`double emin=FHUGE`).  Its
value in the library headers is `1e10`. -/
def FHUGE : ℚ := 10000000000

/-- The slot-selection cascade of `getBSDFtype` (source lines 26–31):
`df = bsdf->tb; if (!df) df = bsdf->tf; if (!df) df = bsdf->rf;
if (!df) df = bsdf->rb;`. -/
def firstDF (bsdf : SDData) : Option SDSpectralDF :=
  match bsdf.tb with
  | some df => some df
  | none =>
    match bsdf.tf with
    | some df => some df
    | none =>
      match bsdf.rf with
      | some df => some df
      | none => bsdf.rb

/-- `getBSDFtype` (source lines 23–65): classify the BSDF representation and
compute the feature flags.  The C function writes the flags through an
optional pointer; the driver always supplies one, so the model returns the
tag and the flag word as a pair. -/
def getBSDFtype (bsdf : SDData) : String × Nat :=
  match firstDF bsdf with
  | none => ("Pure_Lambertian", 0)
  | some df =>
    match df.comp0.func with
    | .mtx =>
      let m := df.comp0.distM
      let fl := Nat.lor F_MATRIX (F_IN_COLOR * (if m.chroma then 1 else 0))
      if m.ninc = 145 then ("Klems_Full", fl)
      else if m.ninc = 73 then ("Klems_Half", fl)
      else if m.ninc = 41 then ("Klems_Quarter", fl)
      else ("Unknown_Matrix", fl)
    | .tre =>
      let t := df.comp0.distT
      let fl := Nat.lor F_TTREE (F_IN_COLOR * (if t.chroma then 1 else 0))
      if t.ndim = 4 then ("Anisotropic_Tensor_Tree", fl)
      else if t.ndim = 3 then ("Isotropic_Tensor_Tree", Nat.lor fl F_ISOTROPIC)
      else ("Unknown_Tensor_Tree", fl)
    | .other => ("Unknown", 0)

/-- The numbers printed by one `detailComponent` output line: the three
pseudo-tristimulus percentages, the maximum directional-hemispherical
percentage, and the minimum-resolution cone half-angle in degrees. -/
structure DetailLine where
  xPct : ℝ
  yPct : ℝ
  zPct : ℝ
  dirPct : ℝ
  angleDeg : ℝ

/-- `detailComponent` (source lines 68–79): the numeric content of the report
line for one hemisphere distribution.  When `df` is present the line carries
`100*maxHemi` and `sqrt(minProjSA/M_PI)*(360./M_PI)`; when absent the fixed
placeholders `0` and `180` are printed. -/
noncomputable def detailComponent (lamb : SDValue) (df : Option SDSpectralDF) : DetailLine :=
  { xPct := 100 * (lamb.cieY : ℝ) * (lamb.cx : ℝ) / (lamb.cy : ℝ)
    yPct := 100 * (lamb.cieY : ℝ)
    zPct := 100 * (lamb.cieY : ℝ) * (1 - (lamb.cx : ℝ) - (lamb.cy : ℝ)) / (lamb.cy : ℝ)
    dirPct :=
      match df with
      | some d => 100 * (d.maxHemi : ℝ)
      | none => 0
    angleDeg :=
      match df with
      | some d => Real.sqrt ((d.minProjSA : ℝ) / Real.pi) * (360 / Real.pi)
      | none => 180 }

/-- The error accumulator of `checkReciprocity` (source lines 87–88):
`double emin=FHUGE, emax=0, esum=0; int ntested=0;`. -/
structure ErrAcc where
  emin : ℚ
  emax : ℚ
  esum : ℚ
  ntested : Nat
  deriving DecidableEq

/-- The accumulator's initial state. -/
def ErrAcc.init : ErrAcc := ⟨FHUGE, 0, 0, 0⟩

/-- What happens to one sampled bin pair `(i, o)` inside the matrix loop
(source lines 105–119): a pair is skipped when either direction
reconstruction fails or the forward value is `≤ FTINY`; it makes the check
fail when the general evaluator errors; otherwise it is tested with relative
error `100*fabs(rerr - vrev.cieY)/rerr`. -/
inductive PairOutcome where
  | skip
  | fail
  | tested (e : ℚ)
  deriving DecidableEq

/-- Classify one bin pair `(i, o)`.  `ev` is the dataset's general evaluator;
the source invokes it as `SDevalBSDF(&vrev, vout, vin, bsdf)`, i.e. with the
reconstructed outgoing vector in the first (outgoing) direction slot and the
reconstructed incoming vector in the second (incoming) slot. -/
def pairOutcome (ev : FVECT → FVECT → Option SDValue) (m : SDMat)
    (p : Nat × Nat) : PairOutcome :=
  match m.incvec p.1 with
  | none => .skip
  | some vin =>
    match m.outvec p.2 with
    | none => .skip
    | some vout =>
      if m.value p.2 p.1 ≤ FTINY then .skip
      else
        match ev vout vin with
        | none => .fail
        | some vrev => .tested (100 * |m.value p.2 p.1 - vrev.cieY| / m.value p.2 p.1)

/-- The running-minimum update `if (rerr < emin) emin = rerr` (source
line 116). -/
def updMin (x e : ℚ) : ℚ := if e < x then e else x

/-- The running-maximum update `if (rerr > emax) emax = rerr` (source
line 117). -/
def updMax (x e : ℚ) : ℚ := if e > x then e else x

/-- One step of the accumulation (source lines 110–119).  `none` models the
aborted state after an evaluator failure (`return` at line 114); it is
absorbing. -/
def recipStep (ev : FVECT → FVECT → Option SDValue) (m : SDMat)
    (s : Option ErrAcc) (p : Nat × Nat) : Option ErrAcc :=
  match s with
  | none => none
  | some a =>
    match pairOutcome ev m p with
    | .skip => some a
    | .fail => none
    | .tested e =>
      some ⟨updMin a.emin e, updMax a.emax e, a.esum + e, a.ntested + 1⟩

/-- The list of bin pairs `(i, o)` in the iteration order of the source's
nested loops: `i` from `ninc-1` down to `0`, and for each `i`, `o` from
`nout-1` down to `0` (the two `while (i--)` / `while (o--)` loops). -/
def pairList (m : SDMat) : List (Nat × Nat) :=
  (List.range m.ninc).reverse.flatMap
    (fun i => (List.range m.nout).reverse.map (fun o => (i, o)))

/-- The accumulation run over an arbitrary list of bin pairs. -/
def loopMatrixOn (ev : FVECT → FVECT → Option SDValue) (m : SDMat)
    (l : List (Nat × Nat)) : Option ErrAcc :=
  l.foldl (recipStep ev m) (some ErrAcc.init)

/-- The matrix sampling loop of `checkReciprocity` (source lines 103–121),
with the source's nested structure: the incoming reconstruction is attempted
once per row and a failure `continue`s past the whole inner loop. -/
def loopMatrix (ev : FVECT → FVECT → Option SDValue) (m : SDMat) : Option ErrAcc :=
  (List.range m.ninc).reverse.foldl
    (fun s i =>
      match m.incvec i with
      | none => s
      | some _ =>
        (List.range m.nout).reverse.foldl (fun s2 o => recipStep ev m s2 (i, o)) s)
    (some ErrAcc.init)

/-- The outcome of one reciprocity check: either the check aborted on an
evaluator failure (the C function `return`s printing nothing, line 114), or
it printed a statistics line `emin esum/ntested emax` (line 125), or it
printed the no-data line `0 0 0` (line 129, label `nothing2do`). -/
inductive RecipReport where
  | aborted
  | line (emin eavg emax : ℚ)
  | noData
  deriving DecidableEq

/-- Turn the final loop state into the printed report (source lines 124–129). -/
def reportOf (s : Option ErrAcc) : RecipReport :=
  match s with
  | none => .aborted
  | some a => if a.ntested ≠ 0 then .line a.emin (a.esum / (a.ntested : ℚ)) a.emax else .noData

/-- The body of `checkReciprocity` after slot selection (source lines
97–129): the matrix special case runs when `fl & F_MATRIX` is set; the
`else` branch is empty, so every other representation falls through with
`ntested == 0` to the no-data line. -/
def runMatrixCheck (ev : FVECT → FVECT → Option SDValue) (df : SDSpectralDF)
    (fl : Nat) : RecipReport :=
  if Nat.land fl F_MATRIX ≠ 0 then reportOf (loopMatrix ev df.comp0.distM)
  else .noData

/-- `checkReciprocity` (source lines 82–130) with the evaluator abstracted:
slot selection per lines 86–95, then the matrix check.  `side1`/`side2` are
the C `int` sides (`+1` front, `-1` back). -/
def checkReciprocityEv (ev : FVECT → FVECT → Option SDValue)
    (side1 side2 : Int) (bsdf : SDData) (fl : Nat) : RecipReport :=
  if side1 = side2 then
    match (if side1 > 0 then bsdf.rf else bsdf.rb) with
    | none => .noData
    | some df => runMatrixCheck ev df fl
  else
    match bsdf.tf, bsdf.tb with
    | some df, some _ => runMatrixCheck ev df fl
    | _, _ => .noData

/-- `checkReciprocity` proper: the evaluator is the dataset's own general
evaluator, invoked by the source as `SDevalBSDF(&vrev, vout, vin, bsdf)`. -/
def checkReciprocity (side1 side2 : Int) (bsdf : SDData) (fl : Nat) : RecipReport :=
  checkReciprocityEv bsdf.eval side1 side2 bsdf fl

/-- Modelled from the spec: the variant of the check described by §4.3
step 5, in which the general evaluator is invoked at the *reversed*
direction pair — the reconstructed outgoing direction supplied as the
query's incoming direction and the reconstructed incoming direction supplied
as the query's outgoing direction. -/
def checkReciprocitySpecRev (side1 side2 : Int) (bsdf : SDData) (fl : Nat) : RecipReport :=
  checkReciprocityEv (fun vout vin => bsdf.eval vin vout) side1 side2 bsdf fl

/-- Extract the tested error of a pair, if it is tested. -/
def testedOf (ev : FVECT → FVECT → Option SDValue) (m : SDMat)
    (p : Nat × Nat) : Option ℚ :=
  match pairOutcome ev m p with
  | .tested e => some e
  | _ => none

/-- Whether a pair makes the check fail (evaluator error). -/
def failP (ev : FVECT → FVECT → Option SDValue) (m : SDMat) (p : Nat × Nat) : Bool :=
  match pairOutcome ev m p with
  | .fail => true
  | _ => false

/-- The tested errors contributed by the pairs of a list, in order. -/
def errsOn (ev : FVECT → FVECT → Option SDValue) (m : SDMat)
    (l : List (Nat × Nat)) : List ℚ :=
  l.filterMap (testedOf ev m)

/-- The tested errors of a matrix check, in the source's iteration order. -/
def testedErrors (ev : FVECT → FVECT → Option SDValue) (m : SDMat) : List ℚ :=
  errsOn ev m (pairList m)

/-- Whether some pair of a list makes the check fail. -/
def anyFailOn (ev : FVECT → FVECT → Option SDValue) (m : SDMat)
    (l : List (Nat × Nat)) : Bool :=
  l.any (failP ev m)

/-- Whether some sampled pair of the matrix check makes it fail. -/
def anyFail (ev : FVECT → FVECT → Option SDValue) (m : SDMat) : Bool :=
  anyFailOn ev m (pairList m)

/-- Concrete direction vectors for the test datasets. -/
def vecZ : FVECT := ((0 : ℚ), (0 : ℚ), (1 : ℚ))

/-- A second concrete direction vector. -/
def vecY : FVECT := ((0 : ℚ), (1 : ℚ), (0 : ℚ))

/-- A well-behaved 1×1 test matrix: both reconstructions succeed for bin 0
and the single table entry is 1. -/
def matW : SDMat :=
  ⟨1, 1, false, fun _ _ => 1,
   fun i => if i = 0 then some vecZ else none,
   fun o => if o = 0 then some vecY else none⟩

/-- A 1×2 test matrix (one incoming, two outgoing bins). -/
def matP : SDMat :=
  ⟨1, 2, false, fun _ _ => 1,
   fun i => if i = 0 then some vecZ else none,
   fun _ => some vecY⟩

/-- A concrete tree datum for the test components. -/
def treW : SDTre := ⟨3, false⟩

/-- A matrix-tagged test component over `matW`. -/
def compW : SDComponent := ⟨.mtx, matW, treW⟩

/-- A test hemisphere slot over `compW`. -/
def dfW : SDSpectralDF := ⟨compW, 1/4, 9⟩

/-- A well-behaved evaluator: always succeeds with luminance 1/2. -/
def evW : FVECT → FVECT → Option SDValue := fun _ _ => some ⟨1/2, 1/3, 1/3⟩

/-- An always-failing evaluator. -/
def evFail : FVECT → FVECT → Option SDValue := fun _ _ => none

/-- An evaluator returning an absurdly large luminance (models a grossly
non-reciprocal dataset). -/
def evHuge : FVECT → FVECT → Option SDValue := fun _ _ => some ⟨10000000000000, 0, 0⟩

/-- An argument-order-sensitive evaluator: luminance 10 when the first
(outgoing) argument is `vecY`, 20 otherwise. -/
def evOrd : FVECT → FVECT → Option SDValue :=
  fun o _ => if o = vecY then some ⟨10, 0, 0⟩ else some ⟨20, 0, 0⟩

/-- A concrete Lambertian baseline value. -/
def lambW : SDValue := ⟨1/2, 3/10, 3/10⟩

/-- A test dataset: front reflection only, well-behaved evaluator. -/
def bsdfW : SDData :=
  ⟨some dfW, none, none, none, lambW, lambW, lambW, lambW, false, evW⟩

/-- `bsdfW` with the always-failing evaluator. -/
def bsdfFail : SDData :=
  ⟨some dfW, none, none, none, lambW, lambW, lambW, lambW, false, evFail⟩

/-- `bsdfW` with the absurdly large evaluator. -/
def bsdfHuge : SDData :=
  ⟨some dfW, none, none, none, lambW, lambW, lambW, lambW, false, evHuge⟩

/-- `bsdfW` with the order-sensitive evaluator. -/
def bsdfOrd : SDData :=
  ⟨some dfW, none, none, none, lambW, lambW, lambW, lambW, false, evOrd⟩

/-- A dataset with no slots at all. -/
def bsdfEmpty : SDData :=
  ⟨none, none, none, none, lambW, lambW, lambW, lambW, false, evW⟩

/-- Bit-arithmetic facts about the flag constants, used to evaluate the
`fl & F_MATRIX` tests and `|=` updates on concrete flag words. -/
lemma land44 : Nat.land 4 4 = 4 := by decide

lemma land84 : Nat.land 8 4 = 0 := by decide

lemma lor40 : Nat.lor 4 0 = 4 := by decide

lemma updMin_eq_min (x e : ℚ) : updMin x e = min x e := by
  unfold updMin
  rcases lt_or_le e x with h | h
  · rw [if_pos h, min_eq_right h.le]
  · rw [if_neg (not_lt.mpr h), min_eq_left h]

lemma updMax_eq_max (x e : ℚ) : updMax x e = max x e := by
  unfold updMax
  rcases lt_or_le x e with h | h
  · rw [if_pos h, max_eq_right h.le]
  · rw [if_neg (not_lt.mpr h), max_eq_left h]

lemma foldl_recipStep_none (ev : FVECT → FVECT → Option SDValue) (m : SDMat)
    (l : List (Nat × Nat)) : l.foldl (recipStep ev m) none = none := by
  induction l with
  | nil => rfl
  | cons p l ih => rw [List.foldl_cons]; exact ih

lemma foldl_recipStep_char (ev : FVECT → FVECT → Option SDValue) (m : SDMat) :
    ∀ (l : List (Nat × Nat)) (a : ErrAcc),
      l.foldl (recipStep ev m) (some a) =
        if anyFailOn ev m l then none
        else some ⟨(errsOn ev m l).foldl updMin a.emin,
                   (errsOn ev m l).foldl updMax a.emax,
                   a.esum + (errsOn ev m l).sum,
                   a.ntested + (errsOn ev m l).length⟩ := by
  intro l
  induction l with
  | nil => intro a; simp [anyFailOn, errsOn]
  | cons p l ih =>
    intro a
    rw [List.foldl_cons]
    cases hp : pairOutcome ev m p with
    | skip =>
      have h1 : anyFailOn ev m (p :: l) = anyFailOn ev m l := by
        simp [anyFailOn, failP, hp]
      have h2 : errsOn ev m (p :: l) = errsOn ev m l := by
        simp [errsOn, testedOf, hp]
      rw [show recipStep ev m (some a) p = some a by simp [recipStep, hp], ih, h1, h2]
    | fail =>
      have h1 : anyFailOn ev m (p :: l) = true := by
        simp [anyFailOn, failP, hp]
      rw [show recipStep ev m (some a) p = none by simp [recipStep, hp],
          foldl_recipStep_none, h1]
      simp
    | tested e =>
      have h1 : anyFailOn ev m (p :: l) = anyFailOn ev m l := by
        simp [anyFailOn, failP, hp]
      have h2 : errsOn ev m (p :: l) = e :: errsOn ev m l := by
        simp [errsOn, testedOf, hp]
      rw [show recipStep ev m (some a) p
            = some ⟨updMin a.emin e, updMax a.emax e, a.esum + e, a.ntested + 1⟩ by
            simp [recipStep, hp], ih, h1, h2]
      by_cases hf : anyFailOn ev m l
      · simp [hf]
      · simp only [hf, if_false, Bool.false_eq_true, List.foldl_cons, List.sum_cons,
          List.length_cons, Option.some.injEq, ErrAcc.mk.injEq]
        exact ⟨trivial, trivial, by ring, by omega⟩

lemma loopMatrixOn_char (ev : FVECT → FVECT → Option SDValue) (m : SDMat)
    (l : List (Nat × Nat)) :
    loopMatrixOn ev m l =
      if anyFailOn ev m l then none
      else some ⟨(errsOn ev m l).foldl updMin FHUGE, (errsOn ev m l).foldl updMax 0,
                 (errsOn ev m l).sum, (errsOn ev m l).length⟩ := by
  unfold loopMatrixOn
  rw [foldl_recipStep_char]
  simp [ErrAcc.init]

lemma foldl_congr_fun {α β : Type _} {f g : β → α → β} (h : ∀ b a, f b a = g b a) :
    ∀ (l : List α) (b : β), l.foldl f b = l.foldl g b := by
  intro l
  induction l with
  | nil => intro b; rfl
  | cons a l ih => intro b; rw [List.foldl_cons, List.foldl_cons, h, ih]

lemma foldl_flatMap_eq {α β γ : Type _} (g : α → List β) (f : γ → β → γ) :
    ∀ (l : List α) (c : γ),
      (l.flatMap g).foldl f c = l.foldl (fun c a => (g a).foldl f c) c := by
  intro l
  induction l with
  | nil => intro c; rfl
  | cons a l ih => intro c; rw [List.flatMap_cons, List.foldl_append, List.foldl_cons, ih]

lemma foldl_skiprow (ev : FVECT → FVECT → Option SDValue) (m : SDMat) (i : Nat)
    (h : m.incvec i = none) :
    ∀ (l : List Nat) (s : Option ErrAcc),
      l.foldl (fun s2 o => recipStep ev m s2 (i, o)) s = s := by
  intro l
  induction l with
  | nil => intro s; rfl
  | cons o l ih =>
    intro s
    rw [List.foldl_cons]
    have hs : recipStep ev m s (i, o) = s := by
      cases s with
      | none => rfl
      | some a => simp [recipStep, pairOutcome, h]
    rw [hs]; exact ih s

lemma loopMatrix_eq (ev : FVECT → FVECT → Option SDValue) (m : SDMat) :
    loopMatrix ev m = loopMatrixOn ev m (pairList m) := by
  unfold loopMatrix loopMatrixOn pairList
  rw [foldl_flatMap_eq]
  apply foldl_congr_fun
  intro s i
  rw [List.foldl_map]
  cases hiv : m.incvec i with
  | none => exact (foldl_skiprow ev m i hiv _ s).symm
  | some v => rfl

lemma foldl_perm_of_comm {α β : Type _} (f : β → α → β)
    (comm : ∀ b x y, f (f b x) y = f (f b y) x)
    {l1 l2 : List α} (h : l1.Perm l2) : ∀ b, l1.foldl f b = l2.foldl f b := by
  induction h with
  | nil => intro b; rfl
  | cons x _ ih => intro b; rw [List.foldl_cons, List.foldl_cons]; exact ih _
  | swap x y l =>
    intro b
    rw [List.foldl_cons, List.foldl_cons, List.foldl_cons, List.foldl_cons, comm]
  | trans _ _ ih1 ih2 => intro b; rw [ih1, ih2]

lemma recipStep_comm (ev : FVECT → FVECT → Option SDValue) (m : SDMat)
    (s : Option ErrAcc) (p q : Nat × Nat) :
    recipStep ev m (recipStep ev m s p) q = recipStep ev m (recipStep ev m s q) p := by
  cases s with
  | none => rfl
  | some a =>
    cases hp : pairOutcome ev m p <;> cases hq : pairOutcome ev m q <;>
      simp [recipStep, hp, hq, updMin_eq_min, updMax_eq_max, min_right_comm,
        sup_right_comm, add_right_comm]

lemma foldl_min_le_init (l : List ℚ) : ∀ d : ℚ, l.foldl min d ≤ d := by
  induction l with
  | nil => intro d; exact le_refl d
  | cons e l ih => intro d; exact le_trans (ih (min d e)) (min_le_left d e)

lemma foldl_min_le_mem (l : List ℚ) : ∀ (d e : ℚ), e ∈ l → l.foldl min d ≤ e := by
  induction l with
  | nil => intro d e he; cases he
  | cons f l ih =>
    intro d e he
    rcases List.mem_cons.mp he with rfl | he
    · exact le_trans (foldl_min_le_init l (min d e)) (min_le_right d e)
    · exact ih (min d f) e he

lemma foldl_min_mem_or_init (l : List ℚ) :
    ∀ d : ℚ, l.foldl min d ∈ l ∨ l.foldl min d = d := by
  induction l with
  | nil => intro d; right; rfl
  | cons f l ih =>
    intro d
    rw [List.foldl_cons]
    rcases ih (min d f) with h | h
    · left; exact List.mem_cons_of_mem f h
    · rcases min_cases d f with ⟨h2, _⟩ | ⟨h2, _⟩
      · right; rw [h, h2]
      · left; rw [h, h2]; exact List.mem_cons_self f l

lemma foldl_max_init_le (l : List ℚ) : ∀ d : ℚ, d ≤ l.foldl max d := by
  induction l with
  | nil => intro d; exact le_refl d
  | cons e l ih => intro d; exact le_trans (le_max_left d e) (ih (max d e))

lemma foldl_max_mem_le (l : List ℚ) : ∀ (d e : ℚ), e ∈ l → e ≤ l.foldl max d := by
  induction l with
  | nil => intro d e he; cases he
  | cons f l ih =>
    intro d e he
    rcases List.mem_cons.mp he with rfl | he
    · exact le_trans (le_max_right d e) (foldl_max_init_le l (max d e))
    · exact ih (max d f) e he

lemma foldl_max_mem_or_init (l : List ℚ) :
    ∀ d : ℚ, l.foldl max d ∈ l ∨ l.foldl max d = d := by
  induction l with
  | nil => intro d; right; rfl
  | cons f l ih =>
    intro d
    rw [List.foldl_cons]
    rcases ih (max d f) with h | h
    · left; exact List.mem_cons_of_mem f h
    · rcases max_cases d f with ⟨h2, _⟩ | ⟨h2, _⟩
      · right; rw [h, h2]
      · left; rw [h, h2]; exact List.mem_cons_self f l

lemma foldl_min_nonneg (l : List ℚ) (d : ℚ) (hd : 0 ≤ d) (h : ∀ e ∈ l, 0 ≤ e) :
    0 ≤ l.foldl min d := by
  rcases foldl_min_mem_or_init l d with hm | hm
  · exact h _ hm
  · rw [hm]; exact hd

lemma foldl_max_attained (l : List ℚ) (hne : l ≠ []) (h : ∀ e ∈ l, 0 ≤ e) :
    l.foldl max 0 ∈ l := by
  rcases foldl_max_mem_or_init l 0 with hm | hm
  · exact hm
  · rcases List.exists_mem_of_ne_nil l hne with ⟨e, he⟩
    have h1 : e ≤ l.foldl max 0 := foldl_max_mem_le l 0 e he
    rw [hm] at h1
    rw [hm, ← le_antisymm h1 (h e he)]
    exact he

lemma mul_length_le_sum (l : List ℚ) (c : ℚ) (h : ∀ e ∈ l, c ≤ e) :
    c * l.length ≤ l.sum := by
  induction l with
  | nil => simp
  | cons e l ih =>
    have he := h e (List.mem_cons_self e l)
    have ih2 := ih (fun x hx => h x (List.mem_cons_of_mem e hx))
    rw [List.sum_cons, List.length_cons]
    push_cast
    nlinarith [ih2, he]

lemma sum_le_mul_length (l : List ℚ) (c : ℚ) (h : ∀ e ∈ l, e ≤ c) :
    l.sum ≤ c * l.length := by
  induction l with
  | nil => simp
  | cons e l ih =>
    have he := h e (List.mem_cons_self e l)
    have ih2 := ih (fun x hx => h x (List.mem_cons_of_mem e hx))
    rw [List.sum_cons, List.length_cons]
    push_cast
    nlinarith [ih2, he]

lemma tested_spec (ev : FVECT → FVECT → Option SDValue) (m : SDMat)
    (p : Nat × Nat) (e : ℚ) (h : pairOutcome ev m p = .tested e) :
    ∃ vin vout vrev, m.incvec p.1 = some vin ∧ m.outvec p.2 = some vout ∧
      ev vout vin = some vrev ∧ FTINY < m.value p.2 p.1 ∧
      e = 100 * |m.value p.2 p.1 - vrev.cieY| / m.value p.2 p.1 := by
  unfold pairOutcome at h
  split at h
  · exact absurd h (by simp)
  next vin hiv =>
    split at h
    · exact absurd h (by simp)
    next vout hov =>
      rw [apply_ite (fun r => r = PairOutcome.tested e)] at h
      split at h
      · exact absurd h (by simp)
      next hth =>
        split at h
        · exact absurd h (by simp)
        next vrev hev =>
          simp only [PairOutcome.tested.injEq] at h
          exact ⟨vin, vout, vrev, hiv, hov, hev, not_le.mp hth, h.symm⟩

lemma tested_nonneg (ev : FVECT → FVECT → Option SDValue) (m : SDMat)
    (p : Nat × Nat) (e : ℚ) (h : pairOutcome ev m p = .tested e) : 0 ≤ e := by
  rcases tested_spec ev m p e h with ⟨vin, vout, vrev, _, _, _, hth, he⟩
  have hpos : 0 < m.value p.2 p.1 := lt_trans (by norm_num [FTINY]) hth
  rw [he]
  exact div_nonneg (mul_nonneg (by norm_num) (abs_nonneg _)) hpos.le

lemma small_fwd_not_tested (ev : FVECT → FVECT → Option SDValue) (m : SDMat)
    (p : Nat × Nat) (e : ℚ) (hsm : m.value p.2 p.1 ≤ FTINY) :
    pairOutcome ev m p ≠ .tested e := by
  intro h
  rcases tested_spec ev m p e h with ⟨_, _, _, _, _, _, hth, _⟩
  exact absurd hsm (not_le.mpr hth)

lemma errsOn_nonneg (ev : FVECT → FVECT → Option SDValue) (m : SDMat)
    (l : List (Nat × Nat)) (e : ℚ) (he : e ∈ errsOn ev m l) : 0 ≤ e := by
  rcases List.mem_filterMap.mp he with ⟨p, _, hp⟩
  unfold testedOf at hp
  cases ho : pairOutcome ev m p <;> rw [ho] at hp <;> simp at hp
  exact hp ▸ tested_nonneg ev m p _ ho

/-- A Klems-Full test matrix (145 incoming bins, chroma present). -/
def matK : SDMat := ⟨145, 145, true, fun _ _ => 0, fun _ => none, fun _ => none⟩

/-- A hemisphere slot holding `matK` as a matrix-tagged component. -/
def dfK : SDSpectralDF := ⟨⟨.mtx, matK, treW⟩, 0, 0⟩

/-- A dataset whose only slot is `rf := dfK`. -/
def bsdfK : SDData :=
  ⟨some dfK, none, none, none, lambW, lambW, lambW, lambW, false, evW⟩

/-- An isotropic (3-dimensional) chroma-resolved test tree. -/
def treI : SDTre := ⟨3, true⟩

/-- A hemisphere slot holding a tree-tagged component over `treI`. -/
def dfT : SDSpectralDF := ⟨⟨.tre, matW, treI⟩, 0, 0⟩

/-- A dataset whose only slot is `tb := dfT`. -/
def bsdfT : SDData :=
  ⟨none, none, none, some dfT, lambW, lambW, lambW, lambW, false, evW⟩

/-- C4: the classifier inspects the first non-absent slot in the order
`tb`, `tf`, `rf`, `rb`; with all four absent it returns `"Pure_Lambertian"`
with no flags; when the selected slot's first component is matrix-tabulated
it maps `ninc` 145/73/41 to the three Klems tags and anything else to
`"Unknown_Matrix"`, sets `F_MATRIX`, and sets `F_IN_COLOR` iff the chroma
channel is present. -/
theorem getBSDFtype_matrix_classification (bsdf : SDData) :
    (bsdf.tb = none → bsdf.tf = none → bsdf.rf = none → bsdf.rb = none →
       getBSDFtype bsdf = ("Pure_Lambertian", 0))
    ∧ (∀ d, bsdf.tb = some d → firstDF bsdf = some d)
    ∧ (∀ d, bsdf.tb = none → bsdf.tf = some d → firstDF bsdf = some d)
    ∧ (∀ d, bsdf.tb = none → bsdf.tf = none → bsdf.rf = some d → firstDF bsdf = some d)
    ∧ (∀ d, bsdf.tb = none → bsdf.tf = none → bsdf.rf = none → bsdf.rb = some d →
         firstDF bsdf = some d)
    ∧ (∀ df, firstDF bsdf = some df → df.comp0.func = .mtx →
         ((df.comp0.distM.ninc = 145 → (getBSDFtype bsdf).1 = "Klems_Full")
          ∧ (df.comp0.distM.ninc = 73 → (getBSDFtype bsdf).1 = "Klems_Half")
          ∧ (df.comp0.distM.ninc = 41 → (getBSDFtype bsdf).1 = "Klems_Quarter")
          ∧ (df.comp0.distM.ninc ≠ 145 → df.comp0.distM.ninc ≠ 73 →
               df.comp0.distM.ninc ≠ 41 → (getBSDFtype bsdf).1 = "Unknown_Matrix")
          ∧ Nat.land (getBSDFtype bsdf).2 F_MATRIX ≠ 0
          ∧ (Nat.land (getBSDFtype bsdf).2 F_IN_COLOR ≠ 0 ↔ df.comp0.distM.chroma = true))) := by
  refine ⟨?_, ?_, ?_, ?_, ?_, ?_⟩
  · intro h1 h2 h3 h4
    simp [getBSDFtype, firstDF, h1, h2, h3, h4]
  · intro d h1; simp [firstDF, h1]
  · intro d h1 h2; simp [firstDF, h1, h2]
  · intro d h1 h2 h3; simp [firstDF, h1, h2, h3]
  · intro d h1 h2 h3 h4; simp [firstDF, h1, h2, h3, h4]
  · intro df h1 h2
    have hty : getBSDFtype bsdf =
        (let m := df.comp0.distM
         let fl := Nat.lor F_MATRIX (F_IN_COLOR * (if m.chroma then 1 else 0))
         if m.ninc = 145 then ("Klems_Full", fl)
         else if m.ninc = 73 then ("Klems_Half", fl)
         else if m.ninc = 41 then ("Klems_Quarter", fl)
         else ("Unknown_Matrix", fl)) := by
      simp only [getBSDFtype, h1, h2]
    refine ⟨?_, ?_, ?_, ?_, ?_, ?_⟩
    · intro hn; simp [hty, hn]
    · intro hn; simp [hty, hn]
    · intro hn; simp [hty, hn]
    · intro hn1 hn2 hn3; simp [hty, hn1, hn2, hn3]
    · cases hc : df.comp0.distM.chroma <;> rw [hty] <;> simp [hc] <;>
        (try split_ifs) <;> decide
    · cases hc : df.comp0.distM.chroma <;> rw [hty] <;> simp [hc] <;>
        (try split_ifs) <;> decide

/-- Witness for `getBSDFtype_matrix_classification` at the concrete dataset
`bsdfK` (a chroma-resolved 145-row matrix in the `rf` slot). -/
theorem getBSDFtype_matrix_classification_witness :
    (getBSDFtype bsdfK).1 = "Klems_Full"
    ∧ Nat.land (getBSDFtype bsdfK).2 F_MATRIX ≠ 0
    ∧ (Nat.land (getBSDFtype bsdfK).2 F_IN_COLOR ≠ 0 ↔ matK.chroma = true) := by
  have h := (getBSDFtype_matrix_classification bsdfK).2.2.2.2.2 dfK rfl rfl
  exact ⟨h.1 rfl, h.2.2.2.2.1, h.2.2.2.2.2⟩

/-- C5: when the selected first component is tree-tabulated, the classifier
maps primary-tree dimensionality 4 to `"Anisotropic_Tensor_Tree"` (isotropic
flag clear), 3 to `"Isotropic_Tensor_Tree"` (isotropic flag set), anything
else to `"Unknown_Tensor_Tree"`; it sets `F_TTREE` and sets `F_IN_COLOR` iff
the second (chroma) tree is present. -/
theorem getBSDFtype_tree_classification (bsdf : SDData) :
    ∀ df, firstDF bsdf = some df → df.comp0.func = .tre →
      ((df.comp0.distT.ndim = 4 →
          (getBSDFtype bsdf).1 = "Anisotropic_Tensor_Tree"
          ∧ Nat.land (getBSDFtype bsdf).2 F_ISOTROPIC = 0)
       ∧ (df.comp0.distT.ndim = 3 →
          (getBSDFtype bsdf).1 = "Isotropic_Tensor_Tree"
          ∧ Nat.land (getBSDFtype bsdf).2 F_ISOTROPIC ≠ 0)
       ∧ (df.comp0.distT.ndim ≠ 4 → df.comp0.distT.ndim ≠ 3 →
          (getBSDFtype bsdf).1 = "Unknown_Tensor_Tree")
       ∧ Nat.land (getBSDFtype bsdf).2 F_TTREE ≠ 0
       ∧ (Nat.land (getBSDFtype bsdf).2 F_IN_COLOR ≠ 0 ↔ df.comp0.distT.chroma = true)) := by
  intro df h1 h2
  have hty : getBSDFtype bsdf =
      (let t := df.comp0.distT
       let fl := Nat.lor F_TTREE (F_IN_COLOR * (if t.chroma then 1 else 0))
       if t.ndim = 4 then ("Anisotropic_Tensor_Tree", fl)
       else if t.ndim = 3 then ("Isotropic_Tensor_Tree", Nat.lor fl F_ISOTROPIC)
       else ("Unknown_Tensor_Tree", fl)) := by
    simp only [getBSDFtype, h1, h2]
  refine ⟨?_, ?_, ?_, ?_, ?_⟩
  · intro hn
    cases hc : df.comp0.distT.chroma <;> rw [hty] <;> simp [hc, hn] <;>
      (try split_ifs) <;> decide
  · intro hn
    cases hc : df.comp0.distT.chroma <;> rw [hty] <;> simp [hc, hn] <;>
      (try split_ifs) <;> decide
  · intro hn1 hn2
    rw [hty]; simp [hn1, hn2]
  · cases hc : df.comp0.distT.chroma <;> rw [hty] <;> simp [hc] <;>
      (try split_ifs) <;> decide
  · cases hc : df.comp0.distT.chroma <;> rw [hty] <;> simp [hc] <;>
      (try split_ifs) <;> decide

/-- Witness for `getBSDFtype_tree_classification` at the concrete dataset
`bsdfT` (a chroma-resolved 3-dimensional tensor tree in the `tb` slot). -/
theorem getBSDFtype_tree_classification_witness :
    ((getBSDFtype bsdfT).1 = "Isotropic_Tensor_Tree"
      ∧ Nat.land (getBSDFtype bsdfT).2 F_ISOTROPIC ≠ 0)
    ∧ Nat.land (getBSDFtype bsdfT).2 F_TTREE ≠ 0
    ∧ (Nat.land (getBSDFtype bsdfT).2 F_IN_COLOR ≠ 0 ↔ treI.chroma = true) := by
  have h := getBSDFtype_tree_classification bsdfT dfT rfl rfl
  exact ⟨h.2.1 rfl, h.2.2.2.1, h.2.2.2.2⟩

/-- C3: slot selection of the reciprocity check — equal sides use `rf`
(front) or `rb` (back) and report no data when that slot is absent; unequal
sides operate on `tf` but report no data when either `tf` or `tb` is absent;
and a clear `F_MATRIX` flag always yields the no-data report. -/
theorem checkReciprocity_slot_selection (side1 side2 : Int) (bsdf : SDData) (fl : Nat) :
    (side1 = side2 → side1 > 0 → bsdf.rf = none →
       checkReciprocity side1 side2 bsdf fl = .noData)
    ∧ (side1 = side2 → ¬side1 > 0 → bsdf.rb = none →
       checkReciprocity side1 side2 bsdf fl = .noData)
    ∧ (∀ df, side1 = side2 → side1 > 0 → bsdf.rf = some df →
       checkReciprocity side1 side2 bsdf fl = runMatrixCheck bsdf.eval df fl)
    ∧ (∀ df, side1 = side2 → ¬side1 > 0 → bsdf.rb = some df →
       checkReciprocity side1 side2 bsdf fl = runMatrixCheck bsdf.eval df fl)
    ∧ (side1 ≠ side2 → bsdf.tf = none ∨ bsdf.tb = none →
       checkReciprocity side1 side2 bsdf fl = .noData)
    ∧ (∀ df df2, side1 ≠ side2 → bsdf.tf = some df → bsdf.tb = some df2 →
       checkReciprocity side1 side2 bsdf fl = runMatrixCheck bsdf.eval df fl)
    ∧ (Nat.land fl F_MATRIX = 0 →
       checkReciprocity side1 side2 bsdf fl = .noData) := by
  refine ⟨?_, ?_, ?_, ?_, ?_, ?_, ?_⟩
  · intro h1 h2 h3
    subst h1
    simp [checkReciprocity, checkReciprocityEv, h2, h3]
  · intro h1 h2 h3
    subst h1
    simp [checkReciprocity, checkReciprocityEv, h2, h3]
  · intro df h1 h2 h3
    subst h1
    simp [checkReciprocity, checkReciprocityEv, h2, h3]
  · intro df h1 h2 h3
    subst h1
    simp [checkReciprocity, checkReciprocityEv, h2, h3]
  · intro h1 h2
    rcases h2 with h2 | h2 <;>
      simp [checkReciprocity, checkReciprocityEv, h1, h2] <;>
      cases htf : bsdf.tf <;> cases htb : bsdf.tb <;> simp_all
  · intro df df2 h1 h2 h3
    simp [checkReciprocity, checkReciprocityEv, h1, h2, h3]
  · intro h1
    have hrm : ∀ df, runMatrixCheck bsdf.eval df fl = .noData := by
      intro df
      unfold runMatrixCheck
      exact if_neg (fun hcon => hcon h1)
    unfold checkReciprocity checkReciprocityEv
    split_ifs with hs hp
    · cases hr : bsdf.rf <;> simp [hrm]
    · cases hr : bsdf.rb <;> simp [hrm]
    · cases htf : bsdf.tf <;> cases htb : bsdf.tb <;> simp [hrm]

/-- Witness for `checkReciprocity_slot_selection`: concrete instances of the
absent-slot and clear-flag branches. -/
theorem checkReciprocity_slot_selection_witness :
    checkReciprocity 1 1 bsdfT 4 = .noData
    ∧ checkReciprocity (-1) 1 bsdfW 4 = .noData
    ∧ checkReciprocity 1 1 bsdfW 8 = .noData := by
  refine ⟨(checkReciprocity_slot_selection 1 1 bsdfT 4).1 rfl (by norm_num) rfl,
          (checkReciprocity_slot_selection (-1) 1 bsdfW 4).2.2.2.2.1 (by norm_num)
            (Or.inl rfl),
          (checkReciprocity_slot_selection 1 1 bsdfW 8).2.2.2.2.2.2 (by decide)⟩

/-- C6: the error aggregation is commutative, so iterating the bin pairs in
any permutation of the source's descending order yields the identical
report. -/
theorem checkReciprocity_order_invariant (ev : FVECT → FVECT → Option SDValue)
    (m : SDMat) (l : List (Nat × Nat)) (h : l.Perm (pairList m)) :
    reportOf (loopMatrixOn ev m l) = reportOf (loopMatrix ev m) := by
  rw [loopMatrix_eq]
  unfold loopMatrixOn
  rw [foldl_perm_of_comm (recipStep ev m) (recipStep_comm ev m) h]

/-- Witness for `checkReciprocity_order_invariant`: the two bin pairs of the
1×2 matrix `matP` processed in the order opposite to the source's. -/
theorem checkReciprocity_order_invariant_witness :
    reportOf (loopMatrixOn evW matP [(0,0),(0,1)]) = reportOf (loopMatrix evW matP) := by
  refine checkReciprocity_order_invariant evW matP [(0,0),(0,1)] ?_
  rw [show pairList matP = [(0,1),(0,0)] from by decide]
  exact List.Perm.swap (0,1) (0,0) []

lemma foldl_recipStep_append_fail (ev : FVECT → FVECT → Option SDValue) (m : SDMat)
    (pre post : List (Nat × Nat)) (p : Nat × Nat)
    (hp : pairOutcome ev m p = .fail) (s : Option ErrAcc) :
    (pre ++ p :: post).foldl (recipStep ev m) s = none := by
  rw [List.foldl_append, List.foldl_cons]
  have h1 : recipStep ev m (pre.foldl (recipStep ev m) s) p = none := by
    cases hs : pre.foldl (recipStep ev m) s with
    | none => rfl
    | some a => simp [recipStep, hp]
  rw [h1, foldl_recipStep_none]

/-- C7: an evaluator failure at any sampled pair aborts the whole matrix
check — the report is `aborted` (no statistic, not even a partial one), and
the outcome does not depend on the pairs that come after the failing one. -/
theorem checkReciprocity_abort_on_failure (ev : FVECT → FVECT → Option SDValue)
    (df : SDSpectralDF) (fl : Nat) (pre post : List (Nat × Nat)) (p : Nat × Nat)
    (hfl : Nat.land fl F_MATRIX ≠ 0)
    (hsplit : pairList df.comp0.distM = pre ++ p :: post)
    (hfail : pairOutcome ev df.comp0.distM p = .fail) :
    runMatrixCheck ev df fl = .aborted
    ∧ (∀ post2, loopMatrixOn ev df.comp0.distM (pre ++ p :: post2) = none) := by
  constructor
  · unfold runMatrixCheck
    rw [if_pos hfl, loopMatrix_eq, hsplit]
    unfold loopMatrixOn
    rw [foldl_recipStep_append_fail ev _ pre post p hfail]
    rfl
  · intro post2
    exact foldl_recipStep_append_fail ev _ pre post2 p hfail _

/-- Witness for `checkReciprocity_abort_on_failure`: the failing evaluator on
the single sampled pair of `matW` yields the aborted report. -/
theorem checkReciprocity_abort_on_failure_witness :
    runMatrixCheck evFail dfW 4 = .aborted := by
  refine (checkReciprocity_abort_on_failure evFail dfW 4 [] [] (0,0) (by decide)
    (by decide) ?_).1
  norm_num [pairOutcome, matW, dfW, compW, evFail, vecZ, vecY, FTINY]

lemma reportOf_some (a : ErrAcc) :
    reportOf (some a) =
      if a.ntested ≠ 0 then RecipReport.line a.emin (a.esum / (a.ntested : ℚ)) a.emax
      else .noData := rfl

/-- C2 (amended): in a matrix-tabulated check with no evaluator failure,
every tested pair contributes `100*|forward - reverse|/forward`, pairs whose
forward value is `≤ FTINY` are never tested, and the reported triple is
(the lesser of `FHUGE = 1e10` and the minimum tested error, the sum of the
tested errors over their count, the maximum tested error); with no tested
pair the check reports no data. -/
theorem checkReciprocity_matrix_stats (ev : FVECT → FVECT → Option SDValue)
    (df : SDSpectralDF) (fl : Nat)
    (hfl : Nat.land fl F_MATRIX ≠ 0)
    (hnofail : anyFail ev df.comp0.distM = false) :
    (∀ p e, df.comp0.distM.value p.2 p.1 ≤ FTINY →
        pairOutcome ev df.comp0.distM p ≠ .tested e)
    ∧ (∀ p e, pairOutcome ev df.comp0.distM p = .tested e →
        ∃ vin vout vrev,
          df.comp0.distM.incvec p.1 = some vin
          ∧ df.comp0.distM.outvec p.2 = some vout
          ∧ ev vout vin = some vrev
          ∧ FTINY < df.comp0.distM.value p.2 p.1
          ∧ e = 100 * |df.comp0.distM.value p.2 p.1 - vrev.cieY|
                  / df.comp0.distM.value p.2 p.1)
    ∧ (testedErrors ev df.comp0.distM = [] → runMatrixCheck ev df fl = .noData)
    ∧ (testedErrors ev df.comp0.distM ≠ [] →
        runMatrixCheck ev df fl =
          .line ((testedErrors ev df.comp0.distM).foldl min FHUGE)
                ((testedErrors ev df.comp0.distM).sum /
                  ((testedErrors ev df.comp0.distM).length : ℚ))
                ((testedErrors ev df.comp0.distM).foldl max 0)
        ∧ (∀ e ∈ testedErrors ev df.comp0.distM,
             (testedErrors ev df.comp0.distM).foldl min FHUGE ≤ e)
        ∧ ((testedErrors ev df.comp0.distM).foldl min FHUGE ∈ testedErrors ev df.comp0.distM
            ∨ (testedErrors ev df.comp0.distM).foldl min FHUGE = FHUGE)
        ∧ (testedErrors ev df.comp0.distM).foldl max 0 ∈ testedErrors ev df.comp0.distM
        ∧ (∀ e ∈ testedErrors ev df.comp0.distM,
             e ≤ (testedErrors ev df.comp0.distM).foldl max 0)) := by
  have hrun : runMatrixCheck ev df fl =
      reportOf (some ⟨(testedErrors ev df.comp0.distM).foldl updMin FHUGE,
                      (testedErrors ev df.comp0.distM).foldl updMax 0,
                      (testedErrors ev df.comp0.distM).sum,
                      (testedErrors ev df.comp0.distM).length⟩) := by
    unfold runMatrixCheck
    rw [if_pos hfl, loopMatrix_eq, loopMatrixOn_char]
    unfold anyFail at hnofail
    rw [hnofail]
    rfl
  refine ⟨fun p e h => small_fwd_not_tested ev _ p e h,
          fun p e h => tested_spec ev _ p e h, ?_, ?_⟩
  · intro hnil
    rw [hrun, hnil]
    rfl
  · intro hne
    have hlen : (testedErrors ev df.comp0.distM).length ≠ 0 := by
      simpa [List.length_eq_zero] using hne
    have hnn : ∀ e ∈ testedErrors ev df.comp0.distM, 0 ≤ e :=
      fun e he => errsOn_nonneg ev _ _ e he
    have hminfold : (testedErrors ev df.comp0.distM).foldl updMin FHUGE
        = (testedErrors ev df.comp0.distM).foldl min FHUGE :=
      foldl_congr_fun (fun b a => updMin_eq_min b a) _ _
    have hmaxfold : (testedErrors ev df.comp0.distM).foldl updMax 0
        = (testedErrors ev df.comp0.distM).foldl max 0 :=
      foldl_congr_fun (fun b a => updMax_eq_max b a) _ _
    refine ⟨?_, fun e he => foldl_min_le_mem _ _ e he, foldl_min_mem_or_init _ _,
            foldl_max_attained _ hne hnn, fun e he => foldl_max_mem_le _ _ e he⟩
    rw [hrun, reportOf_some]
    simp only [hminfold, hmaxfold, hlen]
    rw [if_pos (by exact hlen)]

/-- Witness for `checkReciprocity_matrix_stats` at the concrete dataset
`bsdfW`: one tested pair with error 50. -/
theorem checkReciprocity_matrix_stats_witness :
    runMatrixCheck evW dfW 4 =
      .line ((testedErrors evW dfW.comp0.distM).foldl min FHUGE)
            ((testedErrors evW dfW.comp0.distM).sum /
              ((testedErrors evW dfW.comp0.distM).length : ℚ))
            ((testedErrors evW dfW.comp0.distM).foldl max 0) := by
  refine ((checkReciprocity_matrix_stats evW dfW 4 (by decide) ?_).2.2.2 ?_).1
  · norm_num [anyFail, anyFailOn, failP, pairOutcome, pairList, dfW, compW, matW,
      vecZ, vecY, evW, FTINY]
  · norm_num [testedErrors, errsOn, testedOf, pairOutcome, pairList, dfW, compW, matW,
      vecZ, vecY, evW, FTINY]
    simp

/-- Counterexample to C2 as stated: with the absurdly non-reciprocal
evaluator `evHuge`, the single tested pair has error 999999999999900, yet
the reported first entry is the initial bound `FHUGE = 1e10`, not the
minimum over tested pairs. -/
theorem checkReciprocity_matrix_stats_counterexample :
    testedErrors evHuge dfW.comp0.distM = [999999999999900]
    ∧ runMatrixCheck evHuge dfW 4 = .line FHUGE 999999999999900 999999999999900
    ∧ FHUGE ≠ (999999999999900 : ℚ) := by
  refine ⟨?_, ?_, by norm_num [FHUGE]⟩
  · norm_num [testedErrors, errsOn, testedOf, pairOutcome, pairList, dfW, compW, matW,
      vecZ, vecY, evHuge, FTINY, List.range_succ, List.filterMap_cons, List.filterMap_nil,
      abs_of_nonpos]
  · norm_num [runMatrixCheck, reportOf, loopMatrix, dfW, compW, matW, recipStep,
      pairOutcome, vecZ, vecY, evHuge, FTINY, ErrAcc.init, updMin, updMax, FHUGE,
      F_MATRIX, List.range_succ, land44, abs_of_nonpos, Prod.ext_iff]

/-- Counterexample to C1 as stated: with the argument-order-sensitive
evaluator `evOrd`, the source's call (outgoing vector in the outgoing slot,
incoming vector in the incoming slot) differs from the spec's
reversed-pair variant. -/
theorem checkReciprocity_eval_orientation_counterexample :
    checkReciprocity 1 1 bsdfOrd 4 ≠ checkReciprocitySpecRev 1 1 bsdfOrd 4 := by
  have h1 : checkReciprocity 1 1 bsdfOrd 4 = .line 900 900 900 := by
    norm_num [checkReciprocity, checkReciprocityEv, bsdfOrd, runMatrixCheck, reportOf,
      loopMatrix, dfW, compW, matW, recipStep, pairOutcome, vecZ, vecY, evOrd, FTINY,
      ErrAcc.init, updMin, updMax, FHUGE, F_MATRIX, List.range_succ, land44, abs_of_pos,
      Prod.ext_iff]
  have h2 : checkReciprocitySpecRev 1 1 bsdfOrd 4 = .line 1900 1900 1900 := by
    norm_num [checkReciprocitySpecRev, checkReciprocityEv, bsdfOrd, runMatrixCheck,
      reportOf, loopMatrix, dfW, compW, matW, recipStep, pairOutcome, vecZ, vecY, evOrd,
      FTINY, ErrAcc.init, updMin, updMax, FHUGE, F_MATRIX, List.range_succ, land44,
      abs_of_pos, Prod.ext_iff]
  rw [h1, h2]
  simp

/-- C1 (amended): the source invokes the general evaluator with the
reconstructed outgoing direction as the query's outgoing argument and the
reconstructed incoming direction as the query's incoming argument — the same
orientation as the forward lookup; equivalently, the source check coincides
with the spec's reversed-pair variant applied to the argument-flipped
evaluator. -/
theorem checkReciprocity_eval_orientation (side1 side2 : Int) (bsdf : SDData) (fl : Nat) :
    checkReciprocity side1 side2 bsdf fl =
      checkReciprocitySpecRev side1 side2
        { bsdf with eval := fun outv inv => bsdf.eval inv outv } fl := rfl

/-- C9: whenever the check reports a statistics line, the three reported
values satisfy `0 ≤ min ≤ mean ≤ max`. -/
theorem checkReciprocity_stats_ordered (side1 side2 : Int) (bsdf : SDData) (fl : Nat)
    (a b c : ℚ) (h : checkReciprocity side1 side2 bsdf fl = .line a b c) :
    0 ≤ a ∧ a ≤ b ∧ b ≤ c := by
  have hrun : ∃ df, runMatrixCheck bsdf.eval df fl = .line a b c := by
    unfold checkReciprocity checkReciprocityEv at h
    split at h
    · split at h
      · exact absurd h (by simp)
      · exact ⟨_, h⟩
    · split at h
      · exact ⟨_, h⟩
      · exact absurd h (by simp)
  obtain ⟨df, hdf⟩ := hrun
  unfold runMatrixCheck at hdf
  split at hdf
  case isFalse => exact absurd hdf (by simp)
  rw [loopMatrix_eq, loopMatrixOn_char] at hdf
  split at hdf
  · exact absurd hdf (by simp [reportOf])
  · rw [reportOf_some] at hdf
    split at hdf
    case isFalse => exact absurd hdf (by simp)
    case isTrue hlen =>
      simp only [RecipReport.line.injEq] at hdf
      obtain ⟨ha, hb, hc⟩ := hdf
      have hnn : ∀ e ∈ errsOn bsdf.eval df.comp0.distM (pairList df.comp0.distM), 0 ≤ e :=
        fun e he => errsOn_nonneg _ _ _ e he
      have hminfold : (errsOn bsdf.eval df.comp0.distM (pairList df.comp0.distM)).foldl
          updMin FHUGE
          = (errsOn bsdf.eval df.comp0.distM (pairList df.comp0.distM)).foldl min FHUGE :=
        foldl_congr_fun (fun x y => updMin_eq_min x y) _ _
      have hmaxfold : (errsOn bsdf.eval df.comp0.distM (pairList df.comp0.distM)).foldl
          updMax 0
          = (errsOn bsdf.eval df.comp0.distM (pairList df.comp0.distM)).foldl max 0 :=
        foldl_congr_fun (fun x y => updMax_eq_max x y) _ _
      rw [hminfold] at ha
      rw [hmaxfold] at hc
      have hlpos : (0 : ℚ) <
          (errsOn bsdf.eval df.comp0.distM (pairList df.comp0.distM)).length := by
        have := Nat.pos_of_ne_zero hlen
        exact_mod_cast this
      refine ⟨?_, ?_, ?_⟩
      · rw [← ha]
        exact foldl_min_nonneg _ _ (by norm_num [FHUGE]) hnn
      · rw [← ha, ← hb, le_div_iff₀ hlpos]
        exact mul_length_le_sum _ _
          (fun e he => foldl_min_le_mem _ _ e he)
      · rw [← hb, ← hc, div_le_iff₀ hlpos]
        exact sum_le_mul_length _ _
          (fun e he => foldl_max_mem_le _ _ e he)

/-- Witness for `checkReciprocity_stats_ordered` at the concrete dataset
`bsdfW`, whose reported line is 50/50/50. -/
theorem checkReciprocity_stats_ordered_witness :
    (0 : ℚ) ≤ 50 ∧ (50 : ℚ) ≤ 50 ∧ (50 : ℚ) ≤ 50 := by
  refine checkReciprocity_stats_ordered 1 1 bsdfW 4 50 50 50 ?_
  norm_num [checkReciprocity, checkReciprocityEv, bsdfW, runMatrixCheck, reportOf,
    loopMatrix, dfW, compW, matW, recipStep, pairOutcome, vecZ, vecY, evW, FTINY,
    ErrAcc.init, updMin, updMax, FHUGE, F_MATRIX, List.range_succ, land44, abs_of_pos]

/-- A slot holding the same matrix datum as `dfW` but tagged as a tensor
tree: only the capability tag and tree view differ. -/
def dfWT : SDSpectralDF := ⟨⟨.tre, matW, treW⟩, 1/4, 9⟩

/-- `bsdfW` with its `rf` slot retagged as a tensor tree. -/
def bsdfWT : SDData :=
  ⟨some dfWT, none, none, none, lambW, lambW, lambW, lambW, false, evW⟩

/-- C10: the reciprocity check dispatches solely on the `F_MATRIX` flag it
is handed and never inspects the operative slot's own capability tag: its
result depends only on the evaluator, the slots' presence, and the slots'
matrix views (never on `func` or on the tree view), and with the flag set
the operative slot's first-component datum is always interpreted as a
matrix. -/
theorem checkReciprocity_ignores_capability :
    (∀ b1 b2 : SDData, ∀ side1 side2 : Int, ∀ fl : Nat,
       b1.eval = b2.eval →
       Option.map (fun df => df.comp0.distM) b1.rf
         = Option.map (fun df => df.comp0.distM) b2.rf →
       Option.map (fun df => df.comp0.distM) b1.rb
         = Option.map (fun df => df.comp0.distM) b2.rb →
       Option.map (fun df => df.comp0.distM) b1.tf
         = Option.map (fun df => df.comp0.distM) b2.tf →
       Option.map (fun df => df.comp0.distM) b1.tb
         = Option.map (fun df => df.comp0.distM) b2.tb →
       checkReciprocity side1 side2 b1 fl = checkReciprocity side1 side2 b2 fl)
    ∧ (∀ (ev : FVECT → FVECT → Option SDValue) (df : SDSpectralDF) (fl : Nat),
       Nat.land fl F_MATRIX ≠ 0 →
       runMatrixCheck ev df fl = reportOf (loopMatrix ev df.comp0.distM)) := by
  constructor
  · intro b1 b2 s1 s2 fl hev hrf hrb htf htb
    have hrm : ∀ d1 d2 : SDSpectralDF, d1.comp0.distM = d2.comp0.distM →
        runMatrixCheck b1.eval d1 fl = runMatrixCheck b2.eval d2 fl := by
      intro d1 d2 hd
      unfold runMatrixCheck
      rw [hev, hd]
    have hslot : ∀ o1 o2 : Option SDSpectralDF,
        Option.map (fun df => df.comp0.distM) o1 = Option.map (fun df => df.comp0.distM) o2 →
        (match o1 with
         | none => RecipReport.noData
         | some df => runMatrixCheck b1.eval df fl)
          = (match o2 with
             | none => RecipReport.noData
             | some df => runMatrixCheck b2.eval df fl) := by
      intro o1 o2 ho
      cases o1 with
      | none =>
        cases o2 with
        | none => rfl
        | some d2 => simp at ho
      | some d1 =>
        cases o2 with
        | none => simp at ho
        | some d2 =>
          simp only [Option.map_some', Option.some.injEq] at ho
          exact hrm d1 d2 ho
    unfold checkReciprocity checkReciprocityEv
    split_ifs with hs hp
    · exact hslot b1.rf b2.rf hrf
    · exact hslot b1.rb b2.rb hrb
    · cases h1f : b1.tf with
      | none =>
        cases h2f : b2.tf with
        | none =>
          cases h1b : b1.tb <;> cases h2b : b2.tb <;> rfl
        | some d2 => rw [h1f, h2f] at htf; simp at htf
      | some d1 =>
        cases h2f : b2.tf with
        | none => rw [h1f, h2f] at htf; simp at htf
        | some d2 =>
          rw [h1f, h2f] at htf
          simp only [Option.map_some', Option.some.injEq] at htf
          cases h1b : b1.tb with
          | none =>
            cases h2b : b2.tb with
            | none => rfl
            | some e2 => rw [h1b, h2b] at htb; simp at htb
          | some e1 =>
            cases h2b : b2.tb with
            | none => rw [h1b, h2b] at htb; simp at htb
            | some e2 => exact hrm d1 d2 htf
  · intro ev df fl hfl
    unfold runMatrixCheck
    rw [if_pos hfl]

/-- Witness for `checkReciprocity_ignores_capability`: retagging `bsdfW`'s
only slot as a tensor tree (with an arbitrary tree view) leaves the check's
result unchanged, and the matrix interpretation is used on the tree-tagged
slot whenever the flag is set. -/
theorem checkReciprocity_ignores_capability_witness :
    checkReciprocity 1 1 bsdfW 4 = checkReciprocity 1 1 bsdfWT 4
    ∧ runMatrixCheck evW dfWT 4 = reportOf (loopMatrix evW dfWT.comp0.distM) := by
  exact ⟨checkReciprocity_ignores_capability.1 bsdfW bsdfWT 1 1 4 rfl rfl rfl rfl rfl,
         checkReciprocity_ignores_capability.2 evW dfWT 4 (by decide)⟩

/-- C8: the Lambertian summary line carries the three pseudo-tristimulus
percentages `100*Y*(cx/cy)`, `100*Y`, `100*Y*(1-cx-cy)/cy`; with a
distribution component it also carries `100*maxHemi` and the cone half-angle
`sqrt(minProjSA/pi)*(360/pi)` degrees, and without one the fixed
placeholders 0 and 180. -/
theorem detailComponent_formulas (lamb : SDValue) (df : SDSpectralDF)
    (h : lamb.cy ≠ 0) :
    detailComponent lamb (some df) =
      ⟨100 * (lamb.cieY : ℝ) * ((lamb.cx : ℝ) / (lamb.cy : ℝ)),
       100 * (lamb.cieY : ℝ),
       100 * (lamb.cieY : ℝ) * ((1 - (lamb.cx : ℝ) - (lamb.cy : ℝ)) / (lamb.cy : ℝ)),
       100 * (df.maxHemi : ℝ),
       Real.sqrt ((df.minProjSA : ℝ) / Real.pi) * (360 / Real.pi)⟩
    ∧ detailComponent lamb none =
      ⟨100 * (lamb.cieY : ℝ) * ((lamb.cx : ℝ) / (lamb.cy : ℝ)),
       100 * (lamb.cieY : ℝ),
       100 * (lamb.cieY : ℝ) * ((1 - (lamb.cx : ℝ) - (lamb.cy : ℝ)) / (lamb.cy : ℝ)),
       0, 180⟩ := by
  unfold detailComponent
  constructor <;> simp [DetailLine.mk.injEq, mul_div_assoc]

/-- Witness for `detailComponent_formulas` at the concrete Lambertian value
`lambW` (with `cy = 3/10 ≠ 0`) and slot `dfW`. -/
theorem detailComponent_formulas_witness :
    detailComponent lambW (some dfW) =
      ⟨100 * (lambW.cieY : ℝ) * ((lambW.cx : ℝ) / (lambW.cy : ℝ)),
       100 * (lambW.cieY : ℝ),
       100 * (lambW.cieY : ℝ) * ((1 - (lambW.cx : ℝ) - (lambW.cy : ℝ)) / (lambW.cy : ℝ)),
       100 * (dfW.maxHemi : ℝ),
       Real.sqrt ((dfW.minProjSA : ℝ) / Real.pi) * (360 / Real.pi)⟩
    ∧ detailComponent lambW none =
      ⟨100 * (lambW.cieY : ℝ) * ((lambW.cx : ℝ) / (lambW.cy : ℝ)),
       100 * (lambW.cieY : ℝ),
       100 * (lambW.cieY : ℝ) * ((1 - (lambW.cx : ℝ) - (lambW.cy : ℝ)) / (lambW.cy : ℝ)),
       0, 180⟩ :=
  detailComponent_formulas lambW dfW (by norm_num [lambW])
